import Mathlib

/-!
Shallow embedding of the npm-scripts VS Code extension's dependency-validation
and script-selection engine.

The dependency validator is embedded from `src/src/main.ts` (its second
revision, the one the spec targets): `doValidate`, `parseSourceRanges`,
`getDiagnostic`, `anyModuleErrors`, `collectDefinedDependencies`,
`isDependency`.  The script selection logic is embedded from
`src/unnamed/part_002`: `createAllCommand`, `pickScriptToExecute`,
`runNpmCommandInPackages`, `commandDescriptionsInPackage`,
`commandsDescriptions`, `isMultiRoot`.

Modelling conventions:
* JavaScript values that may be `undefined` become `Option` values; a field
  access on `undefined` (a thrown `TypeError`) becomes `Except.error
  "TypeError"`.  Exceptions propagate through `Except` exactly as a thrown
  JS exception propagates to the nearest `catch`.
* JS objects used as string-keyed maps become association lists that keep
  insertion order; assignment is insert-or-overwrite (`assocSet`).
* `document.positionAt` is an order-preserving translation from byte offsets
  to editor positions, so a `Range(positionAt(o), positionAt(o + l))` is kept
  as the offset pair `(o, o + l)`.
* The published-diagnostics state of the single validated document is a
  `List Diagnostic`; `diagnosticCollection.clear()` sets it to `[]` and
  `diagnosticCollection.set` replaces it.
-/

namespace NpmScripts

/-- A byte offset/length pair locating a token in the manifest text
(`{offset, length}` objects built in `parseSourceRanges` and
`collectDefinedDependencies`). -/
structure Span where
  offset : Nat
  length : Nat
deriving DecidableEq, Repr

/-- `SourceRangeWithVersion` from main.ts: the name-token span and the
value-token span of one dependency entry. -/
structure SourceRangeWithVersion where
  name : Span
  version : Span
deriving DecidableEq, Repr

/-- `SourceRanges` from main.ts: per-dependency spans plus the name-token span
of every top-level manifest property. -/
structure SourceRanges where
  dependencies : List (String × SourceRangeWithVersion)
  properties : List (String × Span)
deriving DecidableEq, Repr

/-- One value of the report's per-package mapping
(`NpmDependencyReport[name]`); every field is optional in the JSON wire
shape. -/
structure NpmDependencyEntry where
  version : Option String := none
  invalid : Option Bool := none
  extraneous : Option Bool := none
  missing : Option Bool := none
deriving DecidableEq, Repr

/-- `NpmListReport` as actually consumed by `getDiagnostic`: besides the
declared `invalid`/`problems`/`dependencies` fields the code also indexes the
parsed JSON with the key `devDependencies`, so that bucket is part of the
model; any of the four may be absent from the parsed JSON. -/
structure NpmListReport where
  invalid : Option Bool := none
  problems : Option (List String) := none
  dependencies : Option (List (String × NpmDependencyEntry)) := none
  devDependencies : Option (List (String × NpmDependencyEntry)) := none
deriving DecidableEq, Repr

/-- The only severities the embedded code uses. -/
inductive DiagnosticSeverity where
  | Warning
  | Error
deriving DecidableEq, Repr

/-- A diagnostic: the span (as start/end offsets), message, severity and the
`source` tag that `doValidate` fills in with `npm`. -/
structure Diagnostic where
  rangeStart : Nat
  rangeEnd : Nat
  message : String
  severity : DiagnosticSeverity
  source : Option String := none
deriving DecidableEq, Repr

/-- Builds the diagnostic exactly as
`new Diagnostic(new Range(positionAt(span.offset), positionAt(span.offset +
span.length)), message, DiagnosticSeverity.Warning)`. -/
def mkDiagnostic (span : Span) (message : String) : Diagnostic :=
  { rangeStart := span.offset
    rangeEnd := span.offset + span.length
    message := message
    severity := DiagnosticSeverity.Warning }

/-- A node of the tree produced by the external `jsonc-parser`'s `parseTree`:
node type, optional string value, offset, length and an optional children
array. -/
inductive JsonNode where
  | node (type : String) (value : Option String) (offset : Nat) (length : Nat)
      (children : Option (List JsonNode))

/-- The `type` field of a parse-tree node. -/
def JsonNode.type : JsonNode → String
  | .node t _ _ _ _ => t

/-- The `value` field of a parse-tree node (`undefined` for non-literals). -/
def JsonNode.value : JsonNode → Option String
  | .node _ v _ _ _ => v

/-- The `offset` field of a parse-tree node. -/
def JsonNode.offset : JsonNode → Nat
  | .node _ _ o _ _ => o

/-- The `length` field of a parse-tree node. -/
def JsonNode.length : JsonNode → Nat
  | .node _ _ _ l _ => l

/-- The `children` field of a parse-tree node (`undefined` for leaves). -/
def JsonNode.children : JsonNode → Option (List JsonNode)
  | .node _ _ _ _ c => c

/-- Assignment `object[key] = value` on a JS object modelled as an ordered
association list: overwrite in place when the key exists, append otherwise. -/
def assocSet {α : Type} (l : List (String × α)) (k : String) (v : α) :
    List (String × α) :=
  if l.any (fun p => p.1 == k) then
    l.map (fun p => if p.1 == k then (k, v) else p)
  else
    l ++ [(k, v)]

/-- `isDependency` from main.ts; the argument is a node's (optional) value,
and `undefined === 'dependencies'` is false. -/
def isDependency (value : Option String) : Bool :=
  value == some "dependencies" || value == some "devDependencies"

/-- The key JS coerces an object index to: `undefined` indexes as the string
`"undefined"`.  Also the text a template literal interpolates for it. -/
def jsString (v : Option String) : String :=
  v.getD "undefined"

/-- `collectDefinedDependencies` from main.ts.  Walks `node.children`
(throwing if the children array is absent), and for every child of type
`property` records name- and value-token spans — reading
`child.children.length` throws when a property node has no children array. -/
def collectDefinedDependencies (deps : List (String × SourceRangeWithVersion))
    (node : JsonNode) : Except String (List (String × SourceRangeWithVersion)) :=
  match node.children with
  | none => .error "TypeError"
  | some cs =>
    cs.foldlM (fun d child =>
      if child.type == "property" then
        match child.children with
        | none => .error "TypeError"
        | some cc =>
          match cc with
          | [dependencyName, version] =>
            .ok (assocSet d (jsString dependencyName.value)
              { name := { offset := dependencyName.offset, length := dependencyName.length }
                version := { offset := version.offset, length := version.length } })
          | _ => .ok d
      else .ok d) deps

/-- `parseSourceRanges` from main.ts, taking the already-parsed tree (the
external `parseTree(text, errors)` result, which is `undefined` for input with
no top-level node).  Mirrors the unguarded accesses: `node.children.forEach`
throws when the root or its children array is absent, and
`children[0]`/`property.value` throws when a child has no children array or an
empty one. -/
def parseSourceRanges (root : Option JsonNode) : Except String SourceRanges :=
  match root with
  | none => .error "TypeError"
  | some n =>
    match n.children with
    | none => .error "TypeError"
    | some cs => do
      let res ← cs.foldlM
        (fun (acc : List (String × SourceRangeWithVersion) × List (String × Span)) child => do
          match child.children with
          | none => .error "TypeError"
          | some cc =>
            match cc.head? with
            | none => .error "TypeError"
            | some property =>
              let props := assocSet acc.2 (jsString property.value)
                { offset := property.offset, length := property.length }
              match cc with
              | [c0, c1] =>
                if isDependency c0.value then do
                  let deps ← collectDefinedDependencies acc.1 c1
                  pure (deps, props)
                else pure (acc.1, props)
              | _ => pure (acc.1, props))
        ([], [])
      pure { dependencies := res.1, properties := res.2 }

/-- JavaScript's `String.prototype.startsWith`, computed on the underlying
character lists (structurally, so that concrete instances reduce). -/
def strStartsWith (s pre : String) : Bool :=
  pre.data.isPrefixOf s.data

/-- `anyModuleErrors` from main.ts: true when the (present) problems list has
an entry tagged `missing:`, `invalid:` or `extraneous:`.  An absent list gives
false; an empty list is truthy in JS but `find` yields nothing. -/
def anyModuleErrors (report : NpmListReport) : Bool :=
  match report.problems with
  | some problems =>
    problems.any (fun each =>
      strStartsWith each "missing:" || strStartsWith each "invalid:" ||
        strStartsWith each "extraneous:")
  | none => false

/-- Message of the missing-module diagnostic. -/
def msgNotInstalled (moduleName : String) : String :=
  "Module '" ++ moduleName ++ "' is not installed"

/-- Message of the invalid-version diagnostic; an absent `version` field
interpolates as `undefined`. -/
def msgInvalid (moduleName : String) (installedVersion : Option String) : String :=
  "Module '" ++ moduleName ++ "' the installed version '" ++
    jsString installedVersion ++ "' is invalid"

/-- Message of the extraneous-module diagnostic. -/
def msgExtraneous (moduleName : String) : String :=
  "Module '" ++ moduleName ++ "' is extraneous"

/-- The fallback "attribute" span the extraneous branch of `getDiagnostic`
selects: the `dependencies` property's name span, else `devDependencies`,
else `name`; `none` when the chain leaves the JS variable `source` as
`null`. -/
def fallbackSpan (ranges : SourceRanges) : Option Span :=
  match ranges.properties.lookup "dependencies" with
  | some sp => some sp
  | none =>
    match ranges.properties.lookup "devDependencies" with
    | some sp => some sp
    | none => ranges.properties.lookup "name"

/-- The body `getDiagnostic` runs for one bucket entry of the current module:
the `missing` / `invalid` / `extraneous` if/else-if chain.  The `missing` and
`invalid` branches dereference `ranges.dependencies[moduleName]` with no
guard, throwing when the module is absent from the range map; the
`extraneous` branch dereferences the fallback span, throwing when the chain
left it `null`.  When no flag is strictly `true` the accumulator (the
`diagnostic` local) is left unchanged. -/
def entryDiagnostic (ranges : SourceRanges) (moduleName : String)
    (entry : NpmDependencyEntry) (acc : Option Diagnostic) :
    Except String (Option Diagnostic) :=
  if entry.missing == some true then
    match ranges.dependencies.lookup moduleName with
    | none => .error "TypeError"
    | some sr => .ok (some (mkDiagnostic sr.name (msgNotInstalled moduleName)))
  else if entry.invalid == some true then
    match ranges.dependencies.lookup moduleName with
    | none => .error "TypeError"
    | some sr => .ok (some (mkDiagnostic sr.version (msgInvalid moduleName entry.version)))
  else if entry.extraneous == some true then
    match fallbackSpan ranges with
    | none => .error "TypeError"
    | some sp => .ok (some (mkDiagnostic sp (msgExtraneous moduleName)))
  else .ok acc

/-- One iteration of `getDiagnostic`'s
`['dependencies', 'devDependencies'].forEach`: the guard
`result[each] && result[each][moduleName]` skips an absent bucket and a
bucket without the module, otherwise the entry's chain runs on the current
`diagnostic` value. -/
def bucketStep (ranges : SourceRanges) (moduleName : String)
    (bucket : Option (List (String × NpmDependencyEntry)))
    (acc : Option Diagnostic) : Except String (Option Diagnostic) :=
  match bucket with
  | none => .ok acc
  | some entries =>
    match entries.lookup moduleName with
    | none => .ok acc
    | some entry => entryDiagnostic ranges moduleName entry acc

/-- The entry the bucket holds for a module, when the bucket itself is
present (`result[each] && result[each][moduleName]`). -/
def bucketLookup (bucket : Option (List (String × NpmDependencyEntry)))
    (moduleName : String) : Option NpmDependencyEntry :=
  match bucket with
  | none => none
  | some entries => entries.lookup moduleName

/-- `getDiagnostic` from main.ts (second revision, lines 870–901): runs the
classification chain over the `dependencies` bucket and then the
`devDependencies` bucket, the later iteration overwriting the `diagnostic`
local of the earlier one. -/
def getDiagnostic (result : NpmListReport) (moduleName : String)
    (ranges : SourceRanges) : Except String (Option Diagnostic) := do
  let d1 ← bucketStep ranges moduleName result.dependencies none
  bucketStep ranges moduleName result.devDependencies d1

/-- The `for (var moduleName in dependencies)` loop of `doValidate`:
iterates the keys of the report's `dependencies` mapping (zero iterations
when the mapping is absent), collecting each produced diagnostic with its
`source` set to `npm`; a thrown `TypeError` aborts the whole loop. -/
def collectDiagnostics (report : NpmListReport) (ranges : SourceRanges) :
    Except String (List Diagnostic) :=
  (report.dependencies.getD []).foldlM
    (fun acc p => do
      let d ← getDiagnostic report p.1 ranges
      match d with
      | some diagnostic => pure (acc ++ [{ diagnostic with source := some "npm" }])
      | none => pure acc)
    []

/-- The fallible part of `doValidate`'s try block after the short-circuits:
parse the manifest's source ranges, then classify every report dependency. -/
def validateBody (report : NpmListReport) (root : Option JsonNode) :
    Except String (List Diagnostic) := do
  let ranges ← parseSourceRanges root
  collectDiagnostics report ranges

/-- `doValidate` from main.ts (second revision, lines 805–843) as a transformer
of the document's published diagnostics.  A failed report fetch returns from
the first catch with the previous diagnostics untouched.  On a fetched report
the try block first runs `diagnosticCollection.clear()`; the two
short-circuits (`report.invalid === true`, no actionable problem tag) then
return with the state cleared, and a `TypeError` thrown while computing
ranges or diagnostics lands in the catch (which shows a message), likewise
leaving the cleared state; otherwise `diagnosticCollection.set` publishes the
computed list. -/
def doValidate (fetched : Except Unit NpmListReport) (root : Option JsonNode)
    (previous : List Diagnostic) : List Diagnostic :=
  match fetched with
  | .error _ => previous
  | .ok report =>
    if report.invalid == some true then []
    else if !anyModuleErrors report then []
    else
      match validateBody report root with
      | .error _ => []
      | .ok diagnostics => diagnostics

/-- `ScriptCommandDescription` from part_002: one runnable unit of the
catalog. -/
structure ScriptCommandDescription where
  absolutePath : String
  relativePath : Option String
  name : String
  cmd : String
deriving DecidableEq, Repr

/-- A workspace folder as the selection code consumes it: its file-system
path and display name. -/
structure WorkspaceFolder where
  fsPath : String
  name : String
deriving DecidableEq, Repr

/-- The host capabilities the catalog/selection code reads: per-directory
`package.json` scripts (`none` = unreadable manifest or no `scripts`
property), `workspace.getWorkspaceFolder` by path, `workspace.workspaceFolders`
and the resolved default directory list (`getAllIncludedDirectories`). -/
structure PickEnv where
  scripts : String → Option (List (String × String))
  workspaceFolderOf : String → Option WorkspaceFolder
  workspaceFolders : Option (List WorkspaceFolder)
  includedDirectories : List String

/-- `isMultiRoot` from part_002. -/
def isMultiRoot (env : PickEnv) : Bool :=
  match env.workspaceFolders with
  | some folders => folders.length > 1
  | none => false

/-- A member of the `scriptList` built by `pickScriptToExecute`: label,
description, script name and the captured working directory (`undefined` for
the synthetic All entry). -/
structure PickEntry where
  label : String
  description : String
  scriptName : String
  cwd : Option String
deriving DecidableEq, Repr

/-- `createAllCommand` from part_002: the synthetic aggregate entry, with
`scriptName: "Dummy"` and `cwd: undefined`.  Its `execute` body iterates the
final `scriptList` (see `allCommandTargets`). -/
def createAllCommand (isScriptCommand : Bool) : PickEntry :=
  { label := "All"
    description := "Run all " ++ (if isScriptCommand then "scripts" else "commands") ++
      " listed below"
    scriptName := "Dummy"
    cwd := none }

/-- The label `pickScriptToExecute` computes for a catalog entry: the name,
prefixed with the relative path when truthy, further prefixed with the owning
root's name in a multi-root workspace. -/
def entryLabel (env : PickEnv) (s : ScriptCommandDescription) : String :=
  let label := s.name
  let label :=
    match s.relativePath with
    | some rp => if rp != "" then rp ++ " - " ++ label else label
    | none => label
  if isMultiRoot env then
    match env.workspaceFolderOf s.absolutePath with
    | some root => root.name ++ ": " ++ label
    | none => label
  else label

/-- The catalog entry `pickScriptToExecute` pushes for one description:
`cwd` is the description's absolute path. -/
def descriptionEntry (env : PickEnv) (s : ScriptCommandDescription) : PickEntry :=
  { label := entryLabel env s
    description := s.cmd
    scriptName := s.name
    cwd := some s.absolutePath }

/-- JS truthiness of the `cwd` field, as tested by `if (s.cwd)` in the All
entry's loop: `undefined` and the empty string are falsy. -/
def cwdTruthy : Option String → Bool
  | none => false
  | some s => s != ""

/-- The `scriptList` that `pickScriptToExecute` assembles: the synthetic All
entry first when `allowAll` is set and more than one description exists, then
one entry per description in order. -/
def buildScriptList (env : PickEnv) (descriptions : List ScriptCommandDescription)
    (command : List String) (allowAll : Bool) : List PickEntry :=
  let isScriptCommand := command.head? == some "run-script"
  let entries := descriptions.map (descriptionEntry env)
  if allowAll && descriptions.length > 1 then
    createAllCommand isScriptCommand :: entries
  else entries

/-- The iteration set of the All entry's `execute`: the members of the
(shared, fully built) `scriptList` whose `cwd` is truthy — the guard that
keeps the All entry from invoking itself. -/
def allCommandTargets (scriptList : List PickEntry) : List PickEntry :=
  scriptList.filter (fun s => cwdTruthy s.cwd)

/-- An `npm` subprocess invocation handed to `runNpmCommand`. -/
structure NpmInvocation where
  args : List String
  cwd : Option String
deriving DecidableEq, Repr

/-- The `/\s/g.test(script)` whitespace test. -/
def hasWhitespace (s : String) : Bool :=
  s.any Char.isWhitespace

/-- The body of a catalog entry's `execute`: quote the script name when it
contains whitespace, copy the family command and append the name for the
`run-script` family, then run it in the entry's directory. -/
def executeScriptEntry (command : List String) (entry : PickEntry) : NpmInvocation :=
  let isScriptCommand := command.head? == some "run-script"
  let script :=
    if hasWhitespace entry.scriptName then "\"" ++ entry.scriptName ++ "\""
    else entry.scriptName
  let cmd := if isScriptCommand then command ++ [script] else command
  { args := cmd, cwd := entry.cwd }

/-- Executing the All entry: every member of its iteration set is executed
once, in list order. -/
def executeAllCommand (command : List String) (scriptList : List PickEntry) :
    List NpmInvocation :=
  (allCommandTargets scriptList).map (executeScriptEntry command)

/-- `command[i]` as a JS template literal interpolates it: `undefined` out of
range. -/
def jsIndex (l : List String) (i : Nat) : String :=
  jsString (l.get? i)

/-- What selection does once the list is built: run the single entry, report
a not-found error, or present the prompt. -/
inductive PickOutcome where
  | executed (entry : PickEntry)
  | errorMessage (message : String)
  | prompted (choices : List PickEntry)
deriving DecidableEq, Repr

/-- `pickScriptToExecute` from part_002 (lines 252–309), up to the user's
choice: a singleton list is executed immediately with no prompt, an empty
list reports the family-specific not-found error, anything else is shown as
a quick-pick. -/
def pickScriptToExecute (env : PickEnv) (descriptions : List ScriptCommandDescription)
    (command : List String) (allowAll : Bool) : PickOutcome :=
  let isScriptCommand := command.head? == some "run-script"
  let scriptList := buildScriptList env descriptions command allowAll
  match scriptList with
  | [entry] => .executed entry
  | [] =>
    if isScriptCommand then
      .errorMessage ("Failed to find script with \"" ++ jsIndex command 1 ++ "\" command")
    else
      .errorMessage ("Failed to find handler for \"" ++ jsIndex command 0 ++ "\" command")
  | _ => .prompted scriptList

/-- `commandDescriptionsInPackage` from part_002: for the `run-script` family
enumerate the manifest's scripts (filtered by `param[1]` when defined and
non-empty), contributing nothing when the manifest is unreadable; for any
other family push exactly one descriptor for the directory. -/
def commandDescriptionsInPackage (env : PickEnv) (param : List String)
    (packagePath : String) : List ScriptCommandDescription :=
  let relativePath :=
    (env.workspaceFolderOf packagePath).map
      (fun f => packagePath.drop (f.fsPath.length + 1))
  let cmd := jsIndex param 0
  let name? := param.get? 1
  if cmd == "run-script" then
    match env.scripts packagePath with
    | none => []
    | some jsonScripts =>
      jsonScripts.filterMap (fun kv =>
        if (match name? with
            | none => true
            | some n => n == "" || kv.1 == n) then
          some { absolutePath := packagePath
                 relativePath := relativePath
                 name := kv.1
                 cmd := cmd ++ " " ++ kv.2 }
        else none)
  else
    [{ absolutePath := packagePath
       relativePath := relativePath
       name := cmd
       cmd := "npm " ++ cmd }]

/-- `commandsDescriptions` from part_002: resolve the directory list (the
configured default when the argument is `undefined`) and collect each
directory's descriptors in order. -/
def commandsDescriptions (env : PickEnv) (command : List String)
    (dirs : Option (List String)) : List ScriptCommandDescription :=
  (dirs.getD env.includedDirectories).flatMap
    (fun dir => commandDescriptionsInPackage env command dir)

/-- `runNpmCommandInPackages` from part_002 (lines 318–325): an empty catalog
stops with the modal error `No scripts found.`; otherwise selection runs. -/
def runNpmCommandInPackages (env : PickEnv) (command : List String)
    (allowAll : Bool) (dirs : Option (List String)) : PickOutcome :=
  let descriptions := commandsDescriptions env command dirs
  if descriptions.length == 0 then
    .errorMessage "No scripts found."
  else
    pickScriptToExecute env descriptions command allowAll

/-- Whether `pat` occurs as a contiguous substring of `s` (used to state that
an error message does or does not name what was sought). -/
def stringContains (s pat : String) : Bool :=
  (List.range (s.data.length + 1)).any (fun i => pat.data.isPrefixOf (s.data.drop i))

deriving instance DecidableEq for Except

/-- Source ranges of a manifest declaring `foo` under `dependencies`. -/
def c1Ranges : SourceRanges :=
  { dependencies := [("foo", { name := ⟨20, 5⟩, version := ⟨27, 8⟩ })]
    properties := [("dependencies", ⟨2, 14⟩)] }

/-- A report whose `dependencies` bucket flags `foo` as missing (and invalid)
and that has no `devDependencies` bucket. -/
def c1ReportDepsOnly : NpmListReport :=
  { problems := some ["missing: foo@^1.0.0"]
    dependencies := some [("foo", { missing := some true, invalid := some true })] }

/-- The same report with a `devDependencies` bucket that flags `foo` as
version-invalid only. -/
def c1ReportWithDev : NpmListReport :=
  { c1ReportDepsOnly with
    devDependencies := some [("foo", { version := some "2.0.0", invalid := some true })] }

/-- Source ranges of a manifest declaring `foo` under `dependencies`. -/
def c2Ranges : SourceRanges :=
  { dependencies := [("foo", { name := ⟨20, 5⟩, version := ⟨27, 8⟩ })]
    properties := [("dependencies", ⟨2, 14⟩)] }

/-- A report entry for `foo` with both `missing` and `invalid` set, in the
`dependencies` bucket only. -/
def c2Report : NpmListReport :=
  { problems := some ["missing: foo@^1.0.0", "invalid: foo@^1.0.0"]
    dependencies := some [("foo", { missing := some true, invalid := some true })] }

/-- A source-range map whose properties include none of `dependencies`,
`devDependencies` or `name`. -/
def c3Ranges : SourceRanges :=
  { dependencies := [], properties := [("version", ⟨2, 9⟩)] }

/-- A report flagging `bar` as extraneous. -/
def c3Report : NpmListReport :=
  { problems := some ["extraneous: bar@1.0.0"]
    dependencies := some [("bar", { version := some "1.0.0", extraneous := some true })] }

/-- A source-range map offering `devDependencies` and `name` property spans
but no `dependencies` span. -/
def c3WitnessRanges : SourceRanges :=
  { dependencies := [], properties := [("name", ⟨1, 6⟩), ("devDependencies", ⟨10, 17⟩)] }

/-- A report with the overall `invalid` flag unset and an empty `problems`
list, but stray per-entry flags in the dependencies mapping. -/
def c4Report : NpmListReport :=
  { problems := some []
    dependencies := some
      [("foo", { missing := some true, invalid := some true, extraneous := some true })] }

/-- A stale diagnostic, published by an earlier validation pass. -/
def staleDiagnostic : Diagnostic :=
  { rangeStart := 0, rangeEnd := 1, message := "stale", severity := .Warning,
    source := some "npm" }

/-- Source ranges knowing `bar` but not `foo`. -/
def c6Ranges : SourceRanges :=
  { dependencies := [("bar", { name := ⟨30, 5⟩, version := ⟨37, 8⟩ })]
    properties := [("dependencies", ⟨2, 14⟩)] }

/-- A report flagging both `foo` (absent from the range map) and `bar`
(present in it) as missing. -/
def c6Report : NpmListReport :=
  { problems := some ["missing: foo@^1.0.0", "missing: bar@^2.0.0"]
    dependencies := some [("foo", { missing := some true }), ("bar", { missing := some true })] }

/-- The parse tree of a manifest declaring only `bar` under `dependencies`;
`parseSourceRanges` maps it to `c6Ranges`. -/
def c6Tree : JsonNode :=
  .node "object" none 0 46 (some [
    .node "property" none 1 44 (some [
      .node "string" (some "dependencies") 2 14 none,
      .node "object" none 17 28 (some [
        .node "property" none 30 16 (some [
          .node "string" (some "bar") 30 5 none,
          .node "string" (some "^2.0.0") 37 8 none])])])])

/-- An environment with no readable manifests and no workspace roots. -/
def c8Env : PickEnv :=
  { scripts := fun _ => none
    workspaceFolderOf := fun _ => none
    workspaceFolders := none
    includedDirectories := [] }

/-- First catalog entry of the C8 witness. -/
def c8DescA : ScriptCommandDescription :=
  { absolutePath := "/w/a", relativePath := none, name := "test", cmd := "run-script echo a" }

/-- Second catalog entry of the C8 witness. -/
def c8DescB : ScriptCommandDescription :=
  { absolutePath := "/w/b", relativePath := some "b", name := "test", cmd := "run-script echo b" }

/-- An environment with no readable manifests and no workspace roots. -/
def c9Env : PickEnv :=
  { scripts := fun _ => none
    workspaceFolderOf := fun _ => none
    workspaceFolders := none
    includedDirectories := [] }

/-- A report whose overall `invalid` flag is set. -/
def c10Report : NpmListReport :=
  { invalid := some true
    problems := some ["missing: foo@^1.0.0"]
    dependencies := some [("foo", { missing := some true })] }

theorem bucketStep_not_found (ranges : SourceRanges) (moduleName : String)
    (bucket : Option (List (String × NpmDependencyEntry))) (acc : Option Diagnostic)
    (h : bucketLookup bucket moduleName = none) :
    bucketStep ranges moduleName bucket acc = .ok acc := by
  unfold bucketLookup at h
  cases bucket with
  | none => rfl
  | some entries =>
    have h' : entries.lookup moduleName = none := h
    simp [bucketStep, h']

theorem bucketStep_found (ranges : SourceRanges) (moduleName : String)
    (bucket : Option (List (String × NpmDependencyEntry))) (acc : Option Diagnostic)
    (entry : NpmDependencyEntry) (h : bucketLookup bucket moduleName = some entry) :
    bucketStep ranges moduleName bucket acc = entryDiagnostic ranges moduleName entry acc := by
  unfold bucketLookup at h
  cases bucket with
  | none => simp at h
  | some entries =>
    have h' : entries.lookup moduleName = some entry := h
    simp [bucketStep, h']

theorem getDiagnostic_split (result : NpmListReport) (moduleName : String)
    (ranges : SourceRanges) (d1 : Option Diagnostic)
    (h : bucketStep ranges moduleName result.dependencies none = .ok d1) :
    getDiagnostic result moduleName ranges =
      bucketStep ranges moduleName result.devDependencies d1 := by
  simp only [getDiagnostic, h]
  rfl

theorem doValidate_short_aux (report : NpmListReport) (root : Option JsonNode)
    (previous : List Diagnostic)
    (h : report.invalid = some true ∨ anyModuleErrors report = false) :
    doValidate (.ok report) root previous = [] := by
  unfold doValidate
  rcases h with h | h
  · simp [h]
  · by_cases hi : report.invalid == some true
    · simp [hi]
    · simp [hi, h]

/-- C1 counterexample: the `devDependencies` bucket of the report does
influence the diagnostic produced for a name listed in the report's
per-package `dependencies` mapping.  Two reports with identical
`dependencies` buckets (flagging `foo` as missing) but different
`devDependencies` buckets produce different diagnostics: without the bucket
the diagnostic is `not installed`, with a bucket entry flagging `foo` as
invalid the later `devDependencies` iteration overwrites it with the
`invalid` diagnostic. -/
theorem c1_devDependencies_bucket_influences :
    c1ReportWithDev.dependencies = c1ReportDepsOnly.dependencies ∧
    getDiagnostic c1ReportWithDev "foo" c1Ranges ≠
      getDiagnostic c1ReportDepsOnly "foo" c1Ranges ∧
    getDiagnostic c1ReportDepsOnly "foo" c1Ranges =
      .ok (some (mkDiagnostic ⟨20, 5⟩ (msgNotInstalled "foo"))) ∧
    getDiagnostic c1ReportWithDev "foo" c1Ranges =
      .ok (some (mkDiagnostic ⟨27, 8⟩ (msgInvalid "foo" (some "2.0.0")))) :=
  ⟨rfl, by decide, rfl, rfl⟩

/-- C1 (amended): `getDiagnostic` reads both the `dependencies` and the
`devDependencies` bucket, the later overwriting the earlier; only when the
name is absent from the `devDependencies` bucket is the diagnostic
determined by the `dependencies` bucket alone. -/
theorem c1_amended_dependencies_bucket_only (result : NpmListReport)
    (moduleName : String) (ranges : SourceRanges)
    (h : bucketLookup result.devDependencies moduleName = none) :
    getDiagnostic result moduleName ranges =
      bucketStep ranges moduleName result.dependencies none := by
  cases hb : bucketStep ranges moduleName result.dependencies none with
  | error e =>
    simp only [getDiagnostic, hb]
    rfl
  | ok d1 =>
    rw [getDiagnostic_split result moduleName ranges d1 hb,
      bucketStep_not_found ranges moduleName result.devDependencies d1 h]

/-- C1 (amended) witness: for the concrete report without a
`devDependencies` bucket the diagnostic comes from the `dependencies` bucket
alone. -/
theorem c1_amended_witness :
    getDiagnostic c1ReportDepsOnly "foo" c1Ranges =
      bucketStep c1Ranges "foo" c1ReportDepsOnly.dependencies none :=
  c1_amended_dependencies_bucket_only c1ReportDepsOnly "foo" c1Ranges rfl

/-- C2: within a bucket entry the classification checks are mutually
exclusive and ordered missing → invalid → extraneous, `getDiagnostic`
returns at most one diagnostic per name (an `Option`), and for a report
entry with both `missing` and `invalid` set (the name occurring in the
`dependencies` bucket only) the produced diagnostic is `not installed`,
anchored at the name-token span — not `invalid`. -/
theorem c2_missing_wins_tie_break (result : NpmListReport) (moduleName : String)
    (ranges : SourceRanges) (deps : List (String × NpmDependencyEntry))
    (entry : NpmDependencyEntry) (sr : SourceRangeWithVersion)
    (hdeps : result.dependencies = some deps)
    (hentry : deps.lookup moduleName = some entry)
    (hmiss : entry.missing = some true)
    (hinv : entry.invalid = some true)
    (hdev : bucketLookup result.devDependencies moduleName = none)
    (hsr : ranges.dependencies.lookup moduleName = some sr) :
    getDiagnostic result moduleName ranges =
      .ok (some (mkDiagnostic sr.name (msgNotInstalled moduleName))) ∧
    (∀ e acc, e.missing = some true →
      entryDiagnostic ranges moduleName e acc =
        .ok (some (mkDiagnostic sr.name (msgNotInstalled moduleName)))) ∧
    (∀ e acc, e.missing ≠ some true → e.invalid = some true →
      entryDiagnostic ranges moduleName e acc =
        .ok (some (mkDiagnostic sr.version (msgInvalid moduleName e.version)))) ∧
    (∀ e acc, e.missing ≠ some true → e.invalid ≠ some true →
      e.extraneous ≠ some true →
      entryDiagnostic ranges moduleName e acc = .ok acc) := by
  have hmissStep : ∀ e acc, e.missing = some true →
      entryDiagnostic ranges moduleName e acc =
        .ok (some (mkDiagnostic sr.name (msgNotInstalled moduleName))) := by
    intro e acc he
    simp [entryDiagnostic, he, hsr]
  refine ⟨?_, hmissStep, ?_, ?_⟩
  · have h1 : bucketStep ranges moduleName result.dependencies none =
        .ok (some (mkDiagnostic sr.name (msgNotInstalled moduleName))) := by
      rw [bucketStep_found ranges moduleName result.dependencies none entry
        (by simp [bucketLookup, hdeps, hentry])]
      exact hmissStep entry none hmiss
    rw [getDiagnostic_split result moduleName ranges _ h1,
      bucketStep_not_found ranges moduleName result.devDependencies _ hdev]
  · intro e acc hne hi
    simp [entryDiagnostic, hne, hi, hsr]
  · intro e acc hne hni hnx
    simp [entryDiagnostic, hne, hni, hnx]

/-- C2 witness: the concrete report entry for `foo` with `missing` and
`invalid` both true produces exactly the `not installed` diagnostic anchored
at the name token. -/
theorem c2_witness :
    getDiagnostic c2Report "foo" c2Ranges =
      .ok (some (mkDiagnostic ⟨20, 5⟩ (msgNotInstalled "foo"))) :=
  (c2_missing_wins_tie_break c2Report "foo" c2Ranges
    [("foo", { missing := some true, invalid := some true })]
    { missing := some true, invalid := some true }
    { name := ⟨20, 5⟩, version := ⟨27, 8⟩ }
    rfl rfl rfl rfl rfl rfl).1

/-- C3 counterexample: when none of the `dependencies`, `devDependencies`
and `name` property spans exists, the extraneous diagnostic is NOT anchored
at the document start (offset 0, length 1); the `source` variable stays
`null` and dereferencing it throws, so the choice does fail for this
source-range map. -/
theorem c3_no_document_start_fallback :
    fallbackSpan c3Ranges = none ∧
    getDiagnostic c3Report "bar" c3Ranges = .error "TypeError" ∧
    getDiagnostic c3Report "bar" c3Ranges ≠
      .ok (some (mkDiagnostic ⟨0, 1⟩ (msgExtraneous "bar"))) :=
  ⟨rfl, rfl, by decide⟩

/-- C3 (amended): the extraneous diagnostic is anchored at a fallback span
chosen in the order `dependencies` property name span, else
`devDependencies`, else `name`; when none of the three is present there is
no document-start last resort — the diagnostic construction throws a
`TypeError` (caught further up by `doValidate`). -/
theorem c3_amended_fallback_order (ranges : SourceRanges) (moduleName : String)
    (entry : NpmDependencyEntry) (acc : Option Diagnostic)
    (h1 : entry.missing ≠ some true) (h2 : entry.invalid ≠ some true)
    (h3 : entry.extraneous = some true) :
    (∀ sp, ranges.properties.lookup "dependencies" = some sp →
      entryDiagnostic ranges moduleName entry acc =
        .ok (some (mkDiagnostic sp (msgExtraneous moduleName)))) ∧
    (∀ sp, ranges.properties.lookup "dependencies" = none →
      ranges.properties.lookup "devDependencies" = some sp →
      entryDiagnostic ranges moduleName entry acc =
        .ok (some (mkDiagnostic sp (msgExtraneous moduleName)))) ∧
    (∀ sp, ranges.properties.lookup "dependencies" = none →
      ranges.properties.lookup "devDependencies" = none →
      ranges.properties.lookup "name" = some sp →
      entryDiagnostic ranges moduleName entry acc =
        .ok (some (mkDiagnostic sp (msgExtraneous moduleName)))) ∧
    (ranges.properties.lookup "dependencies" = none →
      ranges.properties.lookup "devDependencies" = none →
      ranges.properties.lookup "name" = none →
      entryDiagnostic ranges moduleName entry acc = .error "TypeError") := by
  refine ⟨?_, ?_, ?_, ?_⟩
  · intro sp hd
    simp [entryDiagnostic, h1, h2, h3, fallbackSpan, hd]
  · intro sp hd hdd
    simp [entryDiagnostic, h1, h2, h3, fallbackSpan, hd, hdd]
  · intro sp hd hdd hn
    simp [entryDiagnostic, h1, h2, h3, fallbackSpan, hd, hdd, hn]
  · intro hd hdd hn
    simp [entryDiagnostic, h1, h2, h3, fallbackSpan, hd, hdd, hn]

/-- C3 (amended) witness: with `dependencies` absent but `devDependencies`
present among the property spans, the extraneous diagnostic for `bar` is
anchored at the `devDependencies` property name span. -/
theorem c3_witness :
    entryDiagnostic c3WitnessRanges "bar" { extraneous := some true } none =
      .ok (some (mkDiagnostic ⟨10, 17⟩ (msgExtraneous "bar"))) :=
  (c3_amended_fallback_order c3WitnessRanges "bar" { extraneous := some true } none
    (by decide) (by decide) rfl).2.1 ⟨10, 17⟩ rfl rfl

/-- C4: when the fetched report's overall `invalid` flag is set, or its
problems list holds no entry tagged `missing:`, `invalid:` or `extraneous:`
(including an absent or empty list — exactly `anyModuleErrors = false`), the
validation pass publishes zero diagnostics, whatever per-entry flags the
dependencies mapping carries. -/
theorem c4_short_circuit_zero_diagnostics (report : NpmListReport)
    (root : Option JsonNode) (previous : List Diagnostic)
    (h : report.invalid = some true ∨ anyModuleErrors report = false) :
    doValidate (.ok report) root previous = [] :=
  doValidate_short_aux report root previous h

/-- C4 witness: a report with the overall flag unset and an empty problems
list yields zero diagnostics even though its only dependency entry carries
stray `missing`/`invalid`/`extraneous` flags. -/
theorem c4_witness :
    anyModuleErrors c4Report = false ∧
    doValidate (.ok c4Report) none [staleDiagnostic] = [] :=
  ⟨rfl, c4_short_circuit_zero_diagnostics c4Report none [staleDiagnostic] (Or.inr rfl)⟩

/-- C5: when obtaining the installed-module report fails, the validation
pass returns from the catch block at once and the document's previously
published diagnostics are left exactly as they were. -/
theorem c5_reporter_failure_keeps_previous (root : Option JsonNode)
    (previous : List Diagnostic) :
    doValidate (.error ()) root previous = previous :=
  rfl

/-- C6 counterexample: a report dependency absent from the Source Range Map
is not skipped — `getDiagnostic` throws a `TypeError`, the per-dependency
loop aborts, and the other dependency (`bar`, present in the map with its
own missing flag) is never processed: the pass ends with zero published
diagnostics instead of `bar`'s diagnostic.  Likewise `parseSourceRanges`
throws on a tree node with an absent children array instead of tolerating
it. -/
theorem c6_absent_range_crashes :
    getDiagnostic c6Report "foo" c6Ranges = .error "TypeError" ∧
    collectDiagnostics c6Report c6Ranges = .error "TypeError" ∧
    getDiagnostic c6Report "bar" c6Ranges =
      .ok (some (mkDiagnostic ⟨30, 5⟩ (msgNotInstalled "bar"))) ∧
    parseSourceRanges (some c6Tree) = .ok c6Ranges ∧
    doValidate (.ok c6Report) (some c6Tree) [staleDiagnostic] = [] ∧
    parseSourceRanges (some (JsonNode.node "object" none 0 2 none)) =
      .error "TypeError" :=
  ⟨rfl, rfl, rfl, rfl, by decide, rfl⟩

/-- C6 (amended): a dependency flagged `missing` or `invalid` that is absent
from the Source Range Map makes `getDiagnostic` throw a `TypeError`; the
exception lands in `doValidate`'s catch-all (which shows a message), so the
pass publishes zero diagnostics — the remaining dependencies are not
processed, but no exception escapes the validator.  A parse-tree node with
an absent children array likewise makes `parseSourceRanges` throw (also
caught). -/
theorem c6_amended_typeerror_caught (ranges : SourceRanges) (moduleName : String)
    (entry : NpmDependencyEntry) (acc : Option Diagnostic)
    (report : NpmListReport) (root : Option JsonNode) (previous : List Diagnostic)
    (msg ty : String) (v : Option String) (o l : Nat)
    (h1 : ranges.dependencies.lookup moduleName = none)
    (h2 : entry.missing = some true ∨ entry.invalid = some true)
    (h3 : validateBody report root = .error msg) :
    entryDiagnostic ranges moduleName entry acc = .error "TypeError" ∧
    doValidate (.ok report) root previous = [] ∧
    parseSourceRanges (some (JsonNode.node ty v o l none)) = .error "TypeError" := by
  refine ⟨?_, ?_, rfl⟩
  · by_cases hm : entry.missing = some true
    · simp [entryDiagnostic, hm, h1]
    · rcases h2 with h2 | h2
      · exact absurd h2 hm
      · simp [entryDiagnostic, hm, h2, h1]
  · unfold doValidate
    by_cases hi : report.invalid == some true
    · simp [hi]
    · by_cases ha : anyModuleErrors report
      · simp [hi, ha, h3]
      · simp [hi, ha]

/-- C6 (amended) witness: the concrete report whose `foo` entry is absent
from the range map throws, `doValidate` swallows the exception leaving the
cleared state, and the childless node makes the parser throw. -/
theorem c6_witness :
    entryDiagnostic c6Ranges "foo" { missing := some true } none = .error "TypeError" ∧
    doValidate (.ok c6Report) (some c6Tree) [staleDiagnostic] = [] ∧
    parseSourceRanges (some (JsonNode.node "object" none 0 2 none)) =
      .error "TypeError" :=
  c6_amended_typeerror_caught c6Ranges "foo" { missing := some true } none
    c6Report (some c6Tree) [staleDiagnostic] "TypeError" "object" none 0 2
    rfl (Or.inl rfl) rfl

/-- C10: once the report is fetched successfully the pass first clears the
previously published diagnostics, so its outcome never depends on them; in
particular a short-circuited pass (overall `invalid` set, or no actionable
problem tag) leaves the document with zero diagnostics — in contrast to a
fetch failure, which leaves the previous diagnostics in place. -/
theorem c10_success_clears_previous (report : NpmListReport)
    (root : Option JsonNode) (previous : List Diagnostic) :
    doValidate (.ok report) root previous = doValidate (.ok report) root [] ∧
    ((report.invalid = some true ∨ anyModuleErrors report = false) →
      doValidate (.ok report) root previous = []) ∧
    doValidate (.error ()) root previous = previous :=
  ⟨rfl, fun h => doValidate_short_aux report root previous h, rfl⟩

/-- C10 witness: for the concrete report with the overall `invalid` flag
set, a pass over a document holding a stale diagnostic removes it, while a
fetch failure keeps it. -/
theorem c10_witness :
    doValidate (.ok c10Report) none [staleDiagnostic] =
      doValidate (.ok c10Report) none [] ∧
    doValidate (.ok c10Report) none [staleDiagnostic] = [] ∧
    doValidate (.error ()) none [staleDiagnostic] = [staleDiagnostic] := by
  have h := c10_success_clears_previous c10Report none [staleDiagnostic]
  exact ⟨h.1, h.2.1 (Or.inl rfl), h.2.2⟩

/-- C7: a catalog with exactly one command descriptor is executed
immediately — the outcome is `executed`, never a prompt — for every command
family and for both values of the allow-all flag, and no synthetic All entry
is added to the singleton list. -/
theorem c7_singleton_executes_immediately (env : PickEnv)
    (d : ScriptCommandDescription) (command : List String) (allowAll : Bool) :
    buildScriptList env [d] command allowAll = [descriptionEntry env d] ∧
    pickScriptToExecute env [d] command allowAll =
      .executed (descriptionEntry env d) := by
  have hb : buildScriptList env [d] command allowAll = [descriptionEntry env d] := by
    simp [buildScriptList]
  refine ⟨hb, ?_⟩
  simp [pickScriptToExecute, hb]

/-- C8: whenever the synthetic All entry is present (allow-all with more
than one descriptor), it is the first entry of the choice list, its own
`cwd` is falsy so it is excluded from its iteration set (it never invokes
itself), and executing it invokes exactly the other entries of the catalog,
once each in order — provided every descriptor carries a non-empty
directory, as every caller-produced descriptor does. -/
theorem c8_all_entry_first_excluded_runs_rest (env : PickEnv)
    (descriptions : List ScriptCommandDescription) (command : List String)
    (h1 : 1 < descriptions.length)
    (h2 : ∀ d ∈ descriptions, d.absolutePath ≠ "") :
    (buildScriptList env descriptions command true).head? =
      some (createAllCommand (command.head? == some "run-script")) ∧
    cwdTruthy (createAllCommand (command.head? == some "run-script")).cwd = false ∧
    allCommandTargets (buildScriptList env descriptions command true) =
      descriptions.map (descriptionEntry env) ∧
    allCommandTargets (buildScriptList env descriptions command true) =
      (buildScriptList env descriptions command true).drop 1 ∧
    createAllCommand (command.head? == some "run-script") ∉
      allCommandTargets (buildScriptList env descriptions command true) := by
  have hbl : buildScriptList env descriptions command true =
      createAllCommand (command.head? == some "run-script") ::
        descriptions.map (descriptionEntry env) := by
    simp [buildScriptList, h1]
  have hfil : (descriptions.map (descriptionEntry env)).filter
      (fun s => cwdTruthy s.cwd) = descriptions.map (descriptionEntry env) := by
    rw [List.filter_eq_self]
    intro e he
    obtain ⟨d, hd, rfl⟩ := List.mem_map.mp he
    simpa [descriptionEntry, cwdTruthy] using h2 d hd
  have htargets : allCommandTargets (buildScriptList env descriptions command true) =
      descriptions.map (descriptionEntry env) := by
    rw [hbl]
    simp only [allCommandTargets, List.filter]
    rw [show cwdTruthy (createAllCommand (command.head? == some "run-script")).cwd
        = false from rfl]
    exact hfil
  refine ⟨by rw [hbl]; rfl, rfl, htargets, ?_, ?_⟩
  · rw [htargets, hbl]
    rfl
  · rw [htargets]
    intro hmem
    obtain ⟨d, hd, heq⟩ := List.mem_map.mp hmem
    have hcwd : (descriptionEntry env d).cwd =
        (createAllCommand (command.head? == some "run-script")).cwd := by rw [heq]
    simp [descriptionEntry, createAllCommand] at hcwd

/-- C8 witness: a concrete two-entry catalog under allow-all has the All
entry first, and its iteration set is exactly the two real entries. -/
theorem c8_witness :
    (buildScriptList c8Env [c8DescA, c8DescB] ["test"] true).head? =
      some (createAllCommand false) ∧
    allCommandTargets (buildScriptList c8Env [c8DescA, c8DescB] ["test"] true) =
      [descriptionEntry c8Env c8DescA, descriptionEntry c8Env c8DescB] ∧
    createAllCommand false ∉
      allCommandTargets (buildScriptList c8Env [c8DescA, c8DescB] ["test"] true) := by
  have h := c8_all_entry_first_excluded_runs_rest c8Env [c8DescA, c8DescB] ["test"]
    (by decide) (by decide)
  exact ⟨h.1, h.2.2.1, h.2.2.2.2⟩

/-- C9 counterexample: for an empty catalog the error the program actually
reports (the guard in `runNpmCommandInPackages` fires before selection) is
the generic modal `No scripts found.`, which names neither the sought script
name (`myscript`) nor the sought command family (`run-script`). -/
theorem c9_generic_not_found_message :
    runNpmCommandInPackages c9Env ["run-script", "myscript"] false (some []) =
      .errorMessage "No scripts found." ∧
    stringContains "No scripts found." "myscript" = false ∧
    stringContains "No scripts found." "run-script" = false :=
  ⟨rfl, by decide, by decide⟩

/-- C9 (amended): for every empty catalog the runner stops without any
prompt and reports the generic modal error `No scripts found.`, which does
not name what was sought; only the selection routine's own empty-catalog
branch — unreachable through the runner, whose guard fires first — names
the missing script name (`command[1]`) or the missing command family
(`command[0]`). -/
theorem c9_amended_empty_catalog (env : PickEnv) (command : List String)
    (allowAll : Bool) (dirs : Option (List String))
    (h : commandsDescriptions env command dirs = []) :
    runNpmCommandInPackages env command allowAll dirs =
      .errorMessage "No scripts found." ∧
    ((command.head? == some "run-script") = true →
      pickScriptToExecute env [] command allowAll =
        .errorMessage ("Failed to find script with \"" ++ jsIndex command 1 ++
          "\" command")) ∧
    ((command.head? == some "run-script") = false →
      pickScriptToExecute env [] command allowAll =
        .errorMessage ("Failed to find handler for \"" ++ jsIndex command 0 ++
          "\" command")) := by
  refine ⟨?_, ?_, ?_⟩
  · simp [runNpmCommandInPackages, h]
  · intro hs
    simp [pickScriptToExecute, buildScriptList, hs]
  · intro hs
    simp [pickScriptToExecute, buildScriptList, hs]

/-- C9 (amended) witness: with no directories to scan the runner reports the
generic message, while selection invoked directly on the empty catalog names
`myscript`. -/
theorem c9_witness :
    runNpmCommandInPackages c9Env ["run-script", "myscript"] true (some []) =
      .errorMessage "No scripts found." ∧
    pickScriptToExecute c9Env [] ["run-script", "myscript"] true =
      .errorMessage "Failed to find script with \"myscript\" command" := by
  have h := c9_amended_empty_catalog c9Env ["run-script", "myscript"] true (some []) rfl
  exact ⟨h.1, h.2.1 rfl⟩

end NpmScripts
